import Mathlib

/-!
# Verification of the order checkout and inventory engine

Shallow embedding of the checkout / order-status core of the storefront
backend (routes `orders.ts` and `admin.ts`), together with proofs of the
specified properties.

Modelling conventions:
* JavaScript numbers that hold money are integers (`ℤ`); numbers that can
  be fractional (discount values, the configured store percentage) are
  modelled by `JsNum`, a rational together with the non-finite values
  `NaN`, `Infinity` and `-Infinity`, so that the `Number.isFinite` guards
  of the source are expressible.
* `Math.round` is round-half-up (`⌊q + 1/2⌋`), which is its JavaScript
  semantics; `Math.trunc` truncates toward zero.
* Database rows live in association lists keyed by numeric identifiers;
  `alookup` models `findUnique`, `updAssoc` models `update where id`
  (a no-op on an absent key, as `updateMany` is).
* A request handler is a function from the database state to an
  `Except`-value; the transactional semantics of the store means an error
  leaves the state unchanged, which the `…Run` wrappers make explicit.
-/

/-- A JavaScript number: a finite rational or one of the non-finite values. -/
inductive JsNum where
  | finite (q : ℚ)
  | nan
  | posInf
  | negInf
deriving DecidableEq, Repr

/-- `Number.isFinite`. -/
def JsNum.isFinite : JsNum → Bool
  | .finite _ => true
  | _ => false

/-- The JavaScript comparison `x <= 0` (false on `NaN`). -/
def JsNum.leZero : JsNum → Bool
  | .finite q => decide (q ≤ 0)
  | .nan => false
  | .posInf => false
  | .negInf => true

/-- JavaScript `Math.round` on a finite value: round half up. -/
def jsRound (q : ℚ) : ℤ := ⌊q + 1/2⌋

/-- JavaScript `Math.trunc` on a finite value: toward zero. -/
def jsTrunc (q : ℚ) : ℤ := if 0 ≤ q then ⌊q⌋ else ⌈q⌉

/-- Rounding half away from zero, the mode named by the specification for
percentage computations. -/
def roundHalfAwayFromZero (q : ℚ) : ℤ := if 0 ≤ q then ⌊q + 1/2⌋ else ⌈q - 1/2⌉

inductive DiscountType where
  | PERCENTAGE
  | FIXED
deriving DecidableEq, Repr

inductive OrderStatus where
  | PENDING
  | PAID
  | SHIPPED
  | COMPLETED
  | CANCELED
deriving DecidableEq, Repr

inductive PaymentStatus where
  | PENDING
  | PAID
  | FAILED
deriving DecidableEq, Repr

/-- The product row, with the fields the checkout code selects. -/
structure Product where
  name : String
  priceCents : ℤ
  discountValue : Option JsNum
  discountType : Option DiscountType
  stock : ℤ
  isActive : Bool
deriving DecidableEq, Repr

/-- `computeDiscountCents` from `orders.ts`: the order-level (storefront)
discount applied to a subtotal. -/
def computeDiscountCents (subtotalCents : ℤ) (discountPercent : JsNum) : ℤ :=
  if !discountPercent.isFinite || discountPercent.leZero then 0
  else
    match discountPercent with
    | .finite q =>
        let pct : ℤ := max 0 (min 90 (jsTrunc q))
        let cents : ℤ := jsRound ((subtotalCents * pct : ℤ) / (100 : ℚ))
        max 0 (min subtotalCents cents)
    | _ => 0

/-- `computeUnitPriceCents` from `orders.ts`: per-unit price after the
product-level discount. -/
def computeUnitPriceCents (product : Product) : ℤ :=
  let base := product.priceCents
  match product.discountValue with
  | none => base
  | some dv =>
      if !dv.isFinite || dv.leZero then base
      else
        match dv, product.discountType with
        | .finite v, some .FIXED =>
            let discountCents := jsRound (v * 100)
            max 0 (base - discountCents)
        | .finite v, some .PERCENTAGE =>
            let pct := max 0 (min 90 v)
            let discountCents := jsRound ((base : ℚ) * pct / 100)
            max 0 (base - discountCents)
        | _, _ => base

/-- Modelled from the spec (§4.1): the order-level discount as the claim
words it — zero for a non-positive or non-finite configured percent,
otherwise the rounded-half-away-from-zero percentage of the subtotal with
the percent truncated and clamped to `[0, 90]`, the result clamped to
`[0, subtotal]`. -/
def specOrderDiscount (subtotalCents : ℤ) (storePercent : JsNum) : ℤ :=
  if !storePercent.isFinite || storePercent.leZero then 0
  else
    match storePercent with
    | .finite q =>
        let pct : ℤ := max 0 (min 90 (jsTrunc q))
        min subtotalCents
          (max 0 (roundHalfAwayFromZero ((subtotalCents * pct : ℤ) / (100 : ℚ))))
    | _ => 0

example : computeUnitPriceCents
    { name := "", priceCents := 799, discountValue := some (.finite 10),
      discountType := some .PERCENTAGE, stock := 0, isActive := true } = 719 := by
  with_unfolding_all rfl

example : computeDiscountCents 2400 (.finite 10) = 240 := by with_unfolding_all rfl

/-- The shipping snapshot, as validated by `shippingSchema`. -/
structure ShippingInfo where
  fullName : String
  phone : String
  addressLine1 : String
  city : String
  notes : Option String
deriving DecidableEq, Repr

/-- One order line, with the snapshot fields written at checkout.
`productId` is nullable in the schema (it is set to null when the product
row is deleted), hence the `Option`. -/
structure OrderLine where
  productId : Option ℕ
  name : String
  unitPriceCents : ℤ
  quantity : ℤ
  lineTotalCents : ℤ
deriving DecidableEq, Repr

/-- The payment row, one-to-one with its order. -/
structure Payment where
  method : String
  status : PaymentStatus
  amountCents : ℤ
deriving DecidableEq, Repr

/-- The order row together with the rows it owns (lines and payment). -/
structure Order where
  userId : Option ℕ
  currency : String
  subtotalCents : ℤ
  discountCents : ℤ
  shippingCents : ℤ
  totalCents : ℤ
  shipping : ShippingInfo
  status : OrderStatus
  items : List OrderLine
  payment : Payment
deriving DecidableEq, Repr

/-- One cart line: a product reference and a quantity. -/
structure CartItem where
  productId : ℕ
  quantity : ℤ
deriving DecidableEq, Repr

/-- The singleton site-settings row, as read by `getCheckoutSettings`. -/
structure SiteSettings where
  shippingCents : ℤ
  discountPercent : JsNum
deriving DecidableEq, Repr

/-- The persistent state the checkout and order-status handlers touch.
Rows are kept in association lists keyed by numeric identifiers; carts are
keyed by the owning user's id. -/
structure DbState where
  products : List (ℕ × Product)
  orders : List (ℕ × Order)
  carts : List (ℕ × List CartItem)
  settings : Option SiteSettings
  nextOrderId : ℕ
deriving DecidableEq, Repr

/-- `findUnique` on an association list. -/
def alookup {β : Type} (k : ℕ) : List (ℕ × β) → Option β
  | [] => none
  | e :: t => if e.1 = k then some e.2 else alookup k t

/-- `update`/`updateMany where id`: rewrite the value stored at a key,
leaving the list unchanged when the key is absent. -/
def updAssoc {β : Type} (k : ℕ) (f : β → β) (l : List (ℕ × β)) : List (ℕ × β) :=
  l.map fun e => if e.1 = k then (e.1, f e.2) else e

/-- `getCheckoutSettings` from `orders.ts`: the singleton settings row with
each field defaulted to zero when the row is absent. -/
def getCheckoutSettings (s : DbState) : ℤ × JsNum :=
  match s.settings with
  | some st => (st.shippingCents, st.discountPercent)
  | none => (0, JsNum.finite 0)

/-- The error outcomes of the embedded handlers (each corresponds to an
`HttpError` thrown by the source). -/
inductive CheckoutError where
  | notFound
  | outOfStock
  | productInactive
  | cartEmpty
deriving DecidableEq, Repr

/-- One requested `{productId, quantity}` pair of a guest checkout. -/
structure LineRequest where
  productId : ℕ
  quantity : ℤ
deriving DecidableEq, Repr

/-- The per-line step of the guest-checkout handler: resolve the product,
reject a missing or inactive product (404) and an over-stock quantity
(400), otherwise snapshot the priced line. -/
def buildGuestLine (products : List (ℕ × Product)) (i : LineRequest) :
    Except CheckoutError OrderLine :=
  match alookup i.productId products with
  | none => .error .notFound
  | some product =>
      if !product.isActive then .error .notFound
      else if product.stock < i.quantity then .error .outOfStock
      else
        let unitPriceCents := computeUnitPriceCents product
        .ok { productId := some i.productId, name := product.name, unitPriceCents,
              quantity := i.quantity, lineTotalCents := unitPriceCents * i.quantity }

/-- `body.items.map(...)` of the guest-checkout handler: the first line that
fails throws and aborts the whole request. -/
def buildGuestLines (products : List (ℕ × Product)) :
    List LineRequest → Except CheckoutError (List OrderLine)
  | [] => .ok []
  | r :: t =>
      match buildGuestLine products r with
      | .error e => .error e
      | .ok line =>
          match buildGuestLines products t with
          | .error e => .error e
          | .ok rest => .ok (line :: rest)

/-- The priced draft a checkout computes before its transaction. -/
structure CheckoutDraft where
  items : List OrderLine
  subtotalCents : ℤ
  discountCents : ℤ
  shippingCents : ℤ
  totalCents : ℤ
deriving DecidableEq, Repr

/-- The read/validate/price phase of the guest-checkout handler, everything
before `prisma.$transaction`. -/
def guestValidate (s : DbState) (reqs : List LineRequest) :
    Except CheckoutError CheckoutDraft :=
  match buildGuestLines s.products reqs with
  | .error e => .error e
  | .ok items =>
      let subtotalCents := items.foldl (fun sum i => sum + i.lineTotalCents) 0
      let (shippingCents, discountPercent) := getCheckoutSettings s
      let discountCents := computeDiscountCents subtotalCents discountPercent
      let totalCents := max 0 (subtotalCents - discountCents + shippingCents)
      .ok { items, subtotalCents, discountCents, shippingCents, totalCents }

/-- `stock: { decrement: qty }` on the row with the given id. -/
def decrementStock (pid : ℕ) (qty : ℤ) (products : List (ℕ × Product)) :
    List (ℕ × Product) :=
  updAssoc pid (fun p => { p with stock := p.stock - qty }) products

/-- `stock: { increment: qty }` on the row with the given id. -/
def incrementStock (pid : ℕ) (qty : ℤ) (products : List (ℕ × Product)) :
    List (ℕ × Product) :=
  updAssoc pid (fun p => { p with stock := p.stock + qty }) products

/-- The stock-decrement loop of the guest-checkout transaction: one
unconditional decrement per draft line. -/
def applyDecrements (items : List OrderLine) (products : List (ℕ × Product)) :
    List (ℕ × Product) :=
  items.foldl
    (fun prods i =>
      match i.productId with
      | some pid => decrementStock pid i.quantity prods
      | none => prods)
    products

/-- The body of the guest-checkout `prisma.$transaction`: decrement stock
for every line, then create the order with its lines and a PENDING payment
over the computed total. -/
def guestCommit (s : DbState) (shipping : ShippingInfo) (draft : CheckoutDraft) :
    DbState × Order :=
  let products := applyDecrements draft.items s.products
  let order : Order :=
    { userId := none, currency := "DT",
      subtotalCents := draft.subtotalCents, discountCents := draft.discountCents,
      shippingCents := draft.shippingCents, totalCents := draft.totalCents,
      shipping := shipping, status := .PENDING, items := draft.items,
      payment := { method := "COD", status := .PENDING, amountCents := draft.totalCents } }
  ({ s with products := products,
            orders := (s.nextOrderId, order) :: s.orders,
            nextOrderId := s.nextOrderId + 1 },
   order)

/-- `POST /api/orders/guest-checkout`: validate and price the request, then
run the transaction. -/
def guestCheckout (s : DbState) (shipping : ShippingInfo) (reqs : List LineRequest) :
    Except CheckoutError (DbState × Order) :=
  (guestValidate s reqs).map (guestCommit s shipping)

/-- The handler seen from the store: a thrown error aborts the transaction,
so the state is returned unchanged alongside the error. -/
def guestCheckoutRun (s : DbState) (shipping : ShippingInfo) (reqs : List LineRequest) :
    DbState × Except CheckoutError Order :=
  match guestCheckout s shipping reqs with
  | .error e => (s, .error e)
  | .ok (s', o) => (s', .ok o)

/-- The per-line step of the cart checkout: the included product row is
checked for activity (400 "Product inactive") and stock (400 "Out of
stock"); a dangling product reference cannot occur under the schema's
foreign key and is mapped to `notFound`. -/
def buildCartLine (products : List (ℕ × Product)) (ci : CartItem) :
    Except CheckoutError OrderLine :=
  match alookup ci.productId products with
  | none => .error .notFound
  | some product =>
      if !product.isActive then .error .productInactive
      else if product.stock < ci.quantity then .error .outOfStock
      else
        let unitPriceCents := computeUnitPriceCents product
        .ok { productId := some ci.productId, name := product.name, unitPriceCents,
              quantity := ci.quantity, lineTotalCents := unitPriceCents * ci.quantity }

/-- `cart.items.map(...)` of the cart-checkout handler. -/
def buildCartLines (products : List (ℕ × Product)) :
    List CartItem → Except CheckoutError (List OrderLine)
  | [] => .ok []
  | ci :: t =>
      match buildCartLine products ci with
      | .error e => .error e
      | .ok line =>
          match buildCartLines products t with
          | .error e => .error e
          | .ok rest => .ok (line :: rest)

/-- The stock-decrement loop of the cart-checkout transaction, iterating
over the cart's own items. -/
def applyCartDecrements (items : List CartItem) (products : List (ℕ × Product)) :
    List (ℕ × Product) :=
  items.foldl (fun prods ci => decrementStock ci.productId ci.quantity prods) products

/-- `POST /api/orders/checkout`: load the authenticated user's cart, reject
an absent or empty cart, price its lines, then in one transaction decrement
stock per cart line, create the order with lines and PENDING payment, and
delete the cart's items. -/
def cartCheckout (s : DbState) (userId : ℕ) (shipping : ShippingInfo) :
    Except CheckoutError (DbState × Order) :=
  match alookup userId s.carts with
  | none => .error .cartEmpty
  | some cartItems =>
      if cartItems.isEmpty then .error .cartEmpty
      else
        match buildCartLines s.products cartItems with
        | .error e => .error e
        | .ok items =>
            let subtotalCents := items.foldl (fun sum i => sum + i.lineTotalCents) 0
            let (shippingCents, discountPercent) := getCheckoutSettings s
            let discountCents := computeDiscountCents subtotalCents discountPercent
            let totalCents := max 0 (subtotalCents - discountCents + shippingCents)
            let products := applyCartDecrements cartItems s.products
            let order : Order :=
              { userId := some userId, currency := "DT",
                subtotalCents, discountCents, shippingCents, totalCents,
                shipping := shipping, status := .PENDING, items := items,
                payment := { method := "COD", status := .PENDING, amountCents := totalCents } }
            .ok ({ s with products := products,
                          orders := (s.nextOrderId, order) :: s.orders,
                          nextOrderId := s.nextOrderId + 1,
                          carts := updAssoc userId (fun _ => ([] : List CartItem)) s.carts },
                 order)

/-- The cart-checkout handler seen from the store (rollback on error). -/
def cartCheckoutRun (s : DbState) (userId : ℕ) (shipping : ShippingInfo) :
    DbState × Except CheckoutError Order :=
  match cartCheckout s userId shipping with
  | .error e => (s, .error e)
  | .ok (s', o) => (s', .ok o)

/-- The compensating loop of the cancellation branch in
`PATCH /api/admin/orders/:id`: for every line, skip a null `productId`,
otherwise `updateMany` an increment of the recorded quantity (a no-op when
the product row no longer exists). -/
def releaseAll (items : List OrderLine) (products : List (ℕ × Product)) :
    List (ℕ × Product) :=
  items.foldl
    (fun prods i =>
      match i.productId with
      | some pid => incrementStock pid i.quantity prods
      | none => prods)
    products

/-- `PATCH /api/admin/orders/:id`: load the order; when moving a
not-yet-CANCELED order into CANCELED, release the stock of every line and
mark the payment FAILED; when moving into PAID, mark the payment PAID;
finally write the new status. -/
def updateOrderStatus (s : DbState) (id : ℕ) (newStatus : OrderStatus) :
    Except CheckoutError DbState :=
  match alookup id s.orders with
  | none => .error .notFound
  | some existing =>
      let cancelNow := existing.status ≠ OrderStatus.CANCELED ∧ newStatus = OrderStatus.CANCELED
      let products := if cancelNow then releaseAll existing.items s.products else s.products
      let pay1 := if cancelNow then { existing.payment with status := PaymentStatus.FAILED }
                  else existing.payment
      let pay2 := if newStatus = OrderStatus.PAID then { pay1 with status := PaymentStatus.PAID }
                  else pay1
      let newOrder := { existing with status := newStatus, payment := pay2 }
      .ok { s with products := products,
                   orders := updAssoc id (fun _ => newOrder) s.orders }

/-! ## Concrete fixtures used to exercise the handlers -/

/-- A schema-valid shipping snapshot. -/
def exShipping : ShippingInfo :=
  { fullName := "Test User", phone := "1234567890", addressLine1 := "123 Test St",
    city := "Test City", notes := none }

/-- An active, undiscounted product with one unit in stock. -/
def exProduct : Product :=
  { name := "p", priceCents := 100, discountValue := none, discountType := none,
    stock := 1, isActive := true }

/-- A store holding only `exProduct` (id 1), no settings row, no carts. -/
def exState : DbState :=
  { products := [(1, exProduct)], orders := [], carts := [], settings := none,
    nextOrderId := 0 }

/-- The draft the guest-checkout pricing phase computes for a single
one-unit line of `exProduct` in `exState`. -/
def exDraft : CheckoutDraft :=
  { items := [{ productId := some 1, name := "p", unitPriceCents := 100,
                quantity := 1, lineTotalCents := 100 }],
    subtotalCents := 100, discountCents := 0, shippingCents := 0, totalCents := 100 }

/-! ## Claims -/

/-- C1. The claim asserts that every core operation keeps every product's
stock non-negative, in particular a guest checkout whose item list repeats
a product id with per-line quantities within stock. The code refutes it:
with one unit in stock, the request `[{product 1, qty 1}, {product 1,
qty 1}]` passes the per-line pre-check (each line's quantity 1 ≤ stock 1),
the transaction decrements twice, the order is created, and the stored
stock is −1. -/
theorem guest_checkout_duplicate_lines_break_stock_invariant :
    exProduct.stock = 1
      ∧ (∃ ord, (guestCheckoutRun exState exShipping [⟨1, 1⟩, ⟨1, 1⟩]).2 = .ok ord)
      ∧ alookup 1 (guestCheckoutRun exState exShipping [⟨1, 1⟩, ⟨1, 1⟩]).1.products
          = some { exProduct with stock := -1 } :=
  ⟨rfl, ⟨_, by with_unfolding_all rfl⟩, by with_unfolding_all rfl⟩

/-- C2. The claim asserts that the stock-reservation step decrements only
under an atomically verified `stock ≥ quantity`, so that of two racing
one-unit checkouts exactly one succeeds and the final stock is 0. The code
refutes it: validation (the only stock check) runs before the transaction,
and the transaction's decrement is unconditional. Interleaving two
requests as read–read–write–write on a stock-1 product, both validations
succeed on the initial state, both commits go through — the second one
starting from stock 0 and still decrementing — and the final state holds
two orders and stock −1. -/
theorem concurrent_checkouts_both_succeed_oversell :
    guestValidate exState [⟨1, 1⟩] = .ok exDraft
      ∧ alookup 1 (guestCommit exState exShipping exDraft).1.products
          = some { exProduct with stock := 0 }
      ∧ alookup 1
          (guestCommit (guestCommit exState exShipping exDraft).1 exShipping exDraft).1.products
          = some { exProduct with stock := -1 }
      ∧ (guestCommit (guestCommit exState exShipping exDraft).1 exShipping
            exDraft).1.orders.length = 2 := by
  refine ⟨?_, ?_, ?_, ?_⟩ <;> with_unfolding_all rfl

/-- On non-negative arguments, JavaScript's round-half-up agrees with the
specification's round-half-away-from-zero. -/
lemma roundHalfAwayFromZero_eq_jsRound {q : ℚ} (h : 0 ≤ q) :
    roundHalfAwayFromZero q = jsRound q := by
  simp [roundHalfAwayFromZero, jsRound, if_pos h]

/-- C3. `computeUnitPriceCents` behaves as claimed: the base price is
returned unchanged for an absent, non-positive or non-finite discount
value; a FIXED discount subtracts its value in cents, floored at zero; a
PERCENTAGE discount subtracts the rounded clamped percentage of the base,
floored at zero, the effective percentage lying in `[0, 90]`; and base 799
with PERCENTAGE 10 yields 719. -/
theorem computeUnitPriceCents_follows_spec (p : Product) (hb : 0 ≤ p.priceCents) :
    (p.discountValue = none → computeUnitPriceCents p = p.priceCents)
      ∧ (∀ v : JsNum, p.discountValue = some v →
          (v.isFinite = false ∨ v.leZero = true) → computeUnitPriceCents p = p.priceCents)
      ∧ (∀ q : ℚ, p.discountValue = some (.finite q) → 0 < q →
          p.discountType = some .FIXED →
          computeUnitPriceCents p = max 0 (p.priceCents - roundHalfAwayFromZero (q * 100)))
      ∧ (∀ q : ℚ, p.discountValue = some (.finite q) → 0 < q →
          p.discountType = some .PERCENTAGE →
          computeUnitPriceCents p
              = max 0 (p.priceCents
                  - roundHalfAwayFromZero ((p.priceCents : ℚ) * max 0 (min 90 q) / 100))
            ∧ (0 : ℚ) ≤ max 0 (min 90 q) ∧ max 0 (min 90 q) ≤ 90)
      ∧ computeUnitPriceCents
          { name := "", priceCents := 799, discountValue := some (.finite 10),
            discountType := some .PERCENTAGE, stock := 0, isActive := true } = 719 := by
  refine ⟨?_, ?_, ?_, ?_, by with_unfolding_all rfl⟩
  · intro h; simp [computeUnitPriceCents, h]
  · intro v hv hbad
    rcases hbad with hbad | hbad <;>
      simp [computeUnitPriceCents, hv, hbad]
  · intro q hv hq ht
    have hfin : (JsNum.finite q).isFinite = true := rfl
    have hle : (JsNum.finite q).leZero = false := by
      simp [JsNum.leZero, not_le.2 hq]
    rw [roundHalfAwayFromZero_eq_jsRound (by positivity)]
    simp [computeUnitPriceCents, hv, ht, hle, JsNum.isFinite]
  · intro q hv hq ht
    have hle : (JsNum.finite q).leZero = false := by
      simp [JsNum.leZero, not_le.2 hq]
    have hpct0 : (0 : ℚ) ≤ max 0 (min 90 q) := le_max_left _ _
    refine ⟨?_, hpct0, max_le (by norm_num) (min_le_left _ _)⟩
    have harg : (0 : ℚ) ≤ (p.priceCents : ℚ) * max 0 (min 90 q) / 100 := by
      have : (0 : ℚ) ≤ (p.priceCents : ℚ) := by exact_mod_cast hb
      positivity
    rw [roundHalfAwayFromZero_eq_jsRound harg]
    simp [computeUnitPriceCents, hv, ht, hle, JsNum.isFinite]

/-- Closed instance of C3: the FIXED and PERCENTAGE equations evaluated at
concrete inputs, with every hypothesis discharged. -/
theorem computeUnitPriceCents_follows_spec_witness :
    computeUnitPriceCents
        { name := "", priceCents := 799, discountValue := some (.finite 10),
          discountType := some .PERCENTAGE, stock := 0, isActive := true }
      = max 0 (799 - roundHalfAwayFromZero ((799 : ℚ) * max 0 (min 90 10) / 100)) :=
  ((computeUnitPriceCents_follows_spec _ (by decide)).2.2.2.1 10 rfl (by norm_num) rfl).1

/-- C4. The order-level discount of the code agrees with the
specification's `orderDiscount` on every non-negative subtotal and every
configured percent, and the example subtotal 2400 with store percent 10
yields 240. -/
theorem computeDiscountCents_follows_spec (subtotal : ℤ) (hs : 0 ≤ subtotal) (p : JsNum) :
    computeDiscountCents subtotal p = specOrderDiscount subtotal p
      ∧ computeDiscountCents 2400 (.finite 10) = 240 := by
  refine ⟨?_, by with_unfolding_all rfl⟩
  cases p with
  | nan => simp [computeDiscountCents, specOrderDiscount, JsNum.isFinite]
  | posInf => simp [computeDiscountCents, specOrderDiscount, JsNum.isFinite]
  | negInf => simp [computeDiscountCents, specOrderDiscount, JsNum.isFinite, JsNum.leZero]
  | finite q =>
      by_cases hq : q ≤ 0
      · simp [computeDiscountCents, specOrderDiscount, JsNum.leZero, hq]
      · have hle : (JsNum.finite q).leZero = false := by simp [JsNum.leZero, hq]
        have hpct : (0 : ℤ) ≤ max 0 (min 90 (jsTrunc q)) := le_max_left _ _
        have harg : (0 : ℚ) ≤ ((subtotal * max 0 (min 90 (jsTrunc q)) : ℤ) : ℚ) / 100 := by
          have : (0 : ℤ) ≤ subtotal * max 0 (min 90 (jsTrunc q)) := mul_nonneg hs hpct
          have : (0 : ℚ) ≤ ((subtotal * max 0 (min 90 (jsTrunc q)) : ℤ) : ℚ) := by
            exact_mod_cast this
          positivity
        simp only [computeDiscountCents, specOrderDiscount, JsNum.isFinite, hle,
          Bool.not_true, Bool.false_or, Bool.or_false, Bool.false_eq_true, if_false]
        rw [roundHalfAwayFromZero_eq_jsRound harg]
        simp only [max_def, min_def]
        split_ifs <;> omega

/-- Closed instance of C4 at subtotal 2400 and store percent 10. -/
theorem computeDiscountCents_follows_spec_witness :
    computeDiscountCents 2400 (.finite 10) = specOrderDiscount 2400 (.finite 10)
      ∧ computeDiscountCents 2400 (.finite 10) = 240 :=
  computeDiscountCents_follows_spec 2400 (by decide) (.finite 10)

/-! ## Lemmas about the store primitives -/

lemma alookup_updAssoc {β : Type} (k j : ℕ) (f : β → β) (l : List (ℕ × β)) :
    alookup j (updAssoc k f l) = if j = k then (alookup j l).map f else alookup j l := by
  induction l with
  | nil => simp [alookup, updAssoc]
  | cons e t ih =>
      rcases e with ⟨a, b⟩
      have hhd : updAssoc k f ((a, b) :: t)
          = (if a = k then (a, f b) else (a, b)) :: updAssoc k f t := rfl
      rw [hhd]
      by_cases hak : a = k
      · rw [if_pos hak]
        subst hak
        by_cases haj : a = j
        · subst haj
          simp [alookup, ih]
        · simp [alookup, haj, ih]
      · rw [if_neg hak]
        by_cases haj : a = j
        · subst haj
          simp [alookup, hak]
        · simp [alookup, haj, ih]

/-- Total quantity the order's lines record against a given product id. -/
def lineQtyFor (items : List OrderLine) (pid : ℕ) : ℤ :=
  ((items.filter fun i => i.productId = some pid).map fun i => i.quantity).sum

/-- Total quantity the cart's items request for a given product id. -/
def cartQtyFor (items : List CartItem) (pid : ℕ) : ℤ :=
  ((items.filter fun ci => ci.productId = pid).map fun ci => ci.quantity).sum

lemma alookup_releaseAll (items : List OrderLine) (l : List (ℕ × Product)) (pid : ℕ) :
    alookup pid (releaseAll items l)
      = (alookup pid l).map fun p => { p with stock := p.stock + lineQtyFor items pid } := by
  induction items generalizing l with
  | nil =>
      cases h : alookup pid l <;> simp [releaseAll, lineQtyFor, h]
  | cons i t ih =>
      cases hpid : i.productId with
      | none =>
          have hstep : releaseAll (i :: t) l = releaseAll t l := by
            simp [releaseAll, hpid]
          rw [hstep, ih]
          cases h : alookup pid l <;> simp [lineQtyFor, hpid, h]
      | some q =>
          have hstep : releaseAll (i :: t) l
              = releaseAll t (incrementStock q i.quantity l) := by
            simp [releaseAll, hpid]
          rw [hstep, ih]
          simp only [incrementStock]
          rw [alookup_updAssoc]
          by_cases hq : pid = q
          · rw [if_pos hq, Option.map_map]
            cases h : alookup pid l <;>
              simp [lineQtyFor, hpid, hq, h, Function.comp, add_assoc]
          · rw [if_neg hq]
            have hqp : ¬ q = pid := fun hh => hq hh.symm
            cases h : alookup pid l <;>
              simp [lineQtyFor, List.filter_cons, hpid, h, hqp]

lemma alookup_applyDecrements (items : List OrderLine) (l : List (ℕ × Product)) (pid : ℕ) :
    alookup pid (applyDecrements items l)
      = (alookup pid l).map fun p => { p with stock := p.stock - lineQtyFor items pid } := by
  induction items generalizing l with
  | nil =>
      cases h : alookup pid l <;> simp [applyDecrements, lineQtyFor, h]
  | cons i t ih =>
      cases hpid : i.productId with
      | none =>
          have hstep : applyDecrements (i :: t) l = applyDecrements t l := by
            simp [applyDecrements, hpid]
          rw [hstep, ih]
          cases h : alookup pid l <;> simp [lineQtyFor, hpid, h]
      | some q =>
          have hstep : applyDecrements (i :: t) l
              = applyDecrements t (decrementStock q i.quantity l) := by
            simp [applyDecrements, hpid]
          rw [hstep, ih]
          simp only [decrementStock]
          rw [alookup_updAssoc]
          by_cases hq : pid = q
          · rw [if_pos hq, Option.map_map]
            cases h : alookup pid l <;>
              simp [lineQtyFor, hpid, hq, h, Function.comp, sub_sub]
          · rw [if_neg hq]
            have hqp : ¬ q = pid := fun hh => hq hh.symm
            cases h : alookup pid l <;>
              simp [lineQtyFor, List.filter_cons, hpid, h, hqp]

lemma alookup_applyCartDecrements (items : List CartItem) (l : List (ℕ × Product)) (pid : ℕ) :
    alookup pid (applyCartDecrements items l)
      = (alookup pid l).map fun p => { p with stock := p.stock - cartQtyFor items pid } := by
  induction items generalizing l with
  | nil =>
      cases h : alookup pid l <;> simp [applyCartDecrements, cartQtyFor, h]
  | cons i t ih =>
      have hstep : applyCartDecrements (i :: t) l
          = applyCartDecrements t (decrementStock i.productId i.quantity l) := by
        simp [applyCartDecrements]
      rw [hstep, ih]
      simp only [decrementStock]
      rw [alookup_updAssoc]
      by_cases hq : pid = i.productId
      · rw [if_pos hq, Option.map_map]
        cases h : alookup pid l <;>
          simp [cartQtyFor, hq, h, Function.comp, sub_sub]
      · rw [if_neg hq]
        have hqp : ¬ i.productId = pid := fun hh => hq hh.symm
        cases h : alookup pid l <;>
          simp [cartQtyFor, List.filter_cons, h, hqp]

lemma foldl_add_lineTotal (items : List OrderLine) (a : ℤ) :
    items.foldl (fun sum i => sum + i.lineTotalCents) a
      = a + (items.map fun i => i.lineTotalCents).sum := by
  induction items generalizing a with
  | nil => simp
  | cons i t ih => simp [ih, add_assoc]

lemma buildGuestLine_ok_lineTotal {products : List (ℕ × Product)} {r : LineRequest}
    {line : OrderLine} (h : buildGuestLine products r = .ok line) :
    line.lineTotalCents = line.unitPriceCents * line.quantity := by
  unfold buildGuestLine at h
  cases hl : alookup r.productId products with
  | none =>
      simp only [hl] at h
      exact Except.noConfusion h
  | some p =>
      simp only [hl] at h
      split_ifs at h with h1 h2 <;>
        first
          | exact Except.noConfusion h
          | (simp only [Except.ok.injEq] at h; subst h; rfl)

lemma buildCartLine_ok_lineTotal {products : List (ℕ × Product)} {ci : CartItem}
    {line : OrderLine} (h : buildCartLine products ci = .ok line) :
    line.lineTotalCents = line.unitPriceCents * line.quantity := by
  unfold buildCartLine at h
  cases hl : alookup ci.productId products with
  | none =>
      simp only [hl] at h
      exact Except.noConfusion h
  | some p =>
      simp only [hl] at h
      split_ifs at h with h1 h2 <;>
        first
          | exact Except.noConfusion h
          | (simp only [Except.ok.injEq] at h; subst h; rfl)

lemma buildGuestLines_ok_mem {products : List (ℕ × Product)} {reqs : List LineRequest}
    {lines : List OrderLine} (h : buildGuestLines products reqs = .ok lines) :
    ∀ line ∈ lines, ∃ r ∈ reqs, buildGuestLine products r = .ok line := by
  induction reqs generalizing lines with
  | nil =>
      unfold buildGuestLines at h
      simp only [Except.ok.injEq] at h
      subst h
      simp
  | cons a t ih =>
      unfold buildGuestLines at h
      cases hbl : buildGuestLine products a with
      | error e =>
          simp only [hbl] at h
          exact Except.noConfusion h
      | ok line0 =>
          simp only [hbl] at h
          cases hbt : buildGuestLines products t with
          | error e =>
              simp only [hbt] at h
              exact Except.noConfusion h
          | ok rest =>
              simp only [hbt, Except.ok.injEq] at h
              subst h
              intro line hline
              rcases List.mem_cons.mp hline with rfl | hline'
              · exact ⟨a, List.mem_cons_self _ _, hbl⟩
              · rcases ih hbt line hline' with ⟨r, hr, hok⟩
                exact ⟨r, List.mem_cons_of_mem _ hr, hok⟩

lemma buildCartLines_ok_mem {products : List (ℕ × Product)} {items : List CartItem}
    {lines : List OrderLine} (h : buildCartLines products items = .ok lines) :
    ∀ line ∈ lines, ∃ ci ∈ items, buildCartLine products ci = .ok line := by
  induction items generalizing lines with
  | nil =>
      unfold buildCartLines at h
      simp only [Except.ok.injEq] at h
      subst h
      simp
  | cons a t ih =>
      unfold buildCartLines at h
      cases hbl : buildCartLine products a with
      | error e =>
          simp only [hbl] at h
          exact Except.noConfusion h
      | ok line0 =>
          simp only [hbl] at h
          cases hbt : buildCartLines products t with
          | error e =>
              simp only [hbt] at h
              exact Except.noConfusion h
          | ok rest =>
              simp only [hbt, Except.ok.injEq] at h
              subst h
              intro line hline
              rcases List.mem_cons.mp hline with rfl | hline'
              · exact ⟨a, List.mem_cons_self _ _, hbl⟩
              · rcases ih hbt line hline' with ⟨ci, hci, hok⟩
                exact ⟨ci, List.mem_cons_of_mem _ hci, hok⟩

/-- The badness condition of a requested line: missing or inactive product,
or requested quantity above current stock. -/
def badLine (products : List (ℕ × Product)) (pid : ℕ) (qty : ℤ) : Prop :=
  alookup pid products = none
    ∨ ∃ p, alookup pid products = some p ∧ (p.isActive = false ∨ p.stock < qty)

lemma buildGuestLine_error_of_bad {products : List (ℕ × Product)} {r : LineRequest}
    (hbad : badLine products r.productId r.quantity) :
    ∃ e, buildGuestLine products r = .error e := by
  unfold buildGuestLine
  rcases hbad with h | ⟨p, hp, hb⟩
  · rw [h]
    exact ⟨.notFound, rfl⟩
  · rw [hp]
    by_cases hi : p.isActive
    · rcases hb with hb | hb
      · rw [hi] at hb; exact absurd hb (by simp)
      · exact ⟨.outOfStock, by simp [hi, hb]⟩
    · exact ⟨.notFound, by simp [hi]⟩

lemma buildCartLine_error_of_bad {products : List (ℕ × Product)} {ci : CartItem}
    (hbad : badLine products ci.productId ci.quantity) :
    ∃ e, buildCartLine products ci = .error e := by
  unfold buildCartLine
  rcases hbad with h | ⟨p, hp, hb⟩
  · rw [h]
    exact ⟨.notFound, rfl⟩
  · rw [hp]
    by_cases hi : p.isActive
    · rcases hb with hb | hb
      · rw [hi] at hb; exact absurd hb (by simp)
      · exact ⟨.outOfStock, by simp [hi, hb]⟩
    · exact ⟨.productInactive, by simp [hi]⟩

lemma buildGuestLines_error_of_mem {products : List (ℕ × Product)}
    {reqs : List LineRequest} {r : LineRequest} (hr : r ∈ reqs)
    (he : ∃ e0, buildGuestLine products r = .error e0) :
    ∃ e, buildGuestLines products reqs = .error e := by
  induction reqs with
  | nil => cases hr
  | cons a t ih =>
      unfold buildGuestLines
      cases hbl : buildGuestLine products a with
      | error e => exact ⟨e, rfl⟩
      | ok line0 =>
          rcases List.mem_cons.mp hr with rfl | hr'
          · rcases he with ⟨e0, he0⟩
            rw [hbl] at he0
            exact Except.noConfusion he0
          · rcases ih hr' with ⟨e, hee⟩
            rw [hee]
            exact ⟨e, rfl⟩

lemma buildCartLines_error_of_mem {products : List (ℕ × Product)}
    {items : List CartItem} {ci : CartItem} (hci : ci ∈ items)
    (he : ∃ e0, buildCartLine products ci = .error e0) :
    ∃ e, buildCartLines products items = .error e := by
  induction items with
  | nil => cases hci
  | cons a t ih =>
      unfold buildCartLines
      cases hbl : buildCartLine products a with
      | error e => exact ⟨e, rfl⟩
      | ok line0 =>
          rcases List.mem_cons.mp hci with rfl | hci'
          · rcases he with ⟨e0, he0⟩
            rw [hbl] at he0
            exact Except.noConfusion he0
          · rcases ih hci' with ⟨e, hee⟩
            rw [hee]
            exact ⟨e, rfl⟩

lemma buildCartLine_error_ne_cartEmpty {products : List (ℕ × Product)} {ci : CartItem}
    {e : CheckoutError} (h : buildCartLine products ci = .error e) :
    e ≠ .cartEmpty := by
  unfold buildCartLine at h
  cases hl : alookup ci.productId products with
  | none =>
      simp only [hl, Except.error.injEq] at h
      subst h
      simp
  | some p =>
      simp only [hl] at h
      split_ifs at h with h1 h2 <;>
        first
          | exact Except.noConfusion h
          | (simp only [Except.error.injEq] at h; subst h; simp)

lemma buildCartLines_error_ne_cartEmpty {products : List (ℕ × Product)}
    {items : List CartItem} {e : CheckoutError}
    (h : buildCartLines products items = .error e) : e ≠ .cartEmpty := by
  induction items generalizing e with
  | nil =>
      unfold buildCartLines at h
      exact Except.noConfusion h
  | cons a t ih =>
      unfold buildCartLines at h
      cases hbl : buildCartLine products a with
      | error e0 =>
          simp only [hbl, Except.error.injEq] at h
          subst h
          exact buildCartLine_error_ne_cartEmpty hbl
      | ok line0 =>
          simp only [hbl] at h
          cases hbt : buildCartLines products t with
          | error e0 =>
              simp only [hbt, Except.error.injEq] at h
              subst h
              exact ih hbt
          | ok rest =>
              simp only [hbt] at h
              exact Except.noConfusion h

/-- C5. Every order created by a successful checkout — guest or cart —
reconciles: its subtotal is the sum of unit price × quantity over its
lines, each stored line total equals unit price × quantity, its total is
`max 0 (subtotal − discount + shipping)`, and it is created together with
exactly one PENDING payment whose amount equals the total. -/
theorem checkout_creates_reconciled_order_and_pending_payment :
    (∀ (s : DbState) (shipping : ShippingInfo) (reqs : List LineRequest)
        (s' : DbState) (ord : Order),
        guestCheckout s shipping reqs = .ok (s', ord) →
          ord.subtotalCents = (ord.items.map fun l => l.unitPriceCents * l.quantity).sum
            ∧ (∀ l ∈ ord.items, l.lineTotalCents = l.unitPriceCents * l.quantity)
            ∧ ord.totalCents = max 0 (ord.subtotalCents - ord.discountCents + ord.shippingCents)
            ∧ ord.payment.status = PaymentStatus.PENDING
            ∧ ord.payment.amountCents = ord.totalCents
            ∧ s'.orders = (s.nextOrderId, ord) :: s.orders)
      ∧ (∀ (s : DbState) (userId : ℕ) (shipping : ShippingInfo)
          (s' : DbState) (ord : Order),
          cartCheckout s userId shipping = .ok (s', ord) →
            ord.subtotalCents = (ord.items.map fun l => l.unitPriceCents * l.quantity).sum
              ∧ (∀ l ∈ ord.items, l.lineTotalCents = l.unitPriceCents * l.quantity)
              ∧ ord.totalCents = max 0 (ord.subtotalCents - ord.discountCents + ord.shippingCents)
              ∧ ord.payment.status = PaymentStatus.PENDING
              ∧ ord.payment.amountCents = ord.totalCents
              ∧ s'.orders = (s.nextOrderId, ord) :: s.orders) := by
  constructor
  · intro s shipping reqs s' ord h
    unfold guestCheckout at h
    cases hv : guestValidate s reqs with
    | error e => rw [hv] at h; exact Except.noConfusion h
    | ok draft =>
        rw [hv] at h
        simp only [Except.map, Except.ok.injEq] at h
        unfold guestValidate at hv
        cases hb : buildGuestLines s.products reqs with
        | error e => rw [hb] at hv; exact Except.noConfusion hv
        | ok items =>
            simp only [hb, Except.ok.injEq] at hv
            subst hv
            have hlines : ∀ l ∈ items, l.lineTotalCents = l.unitPriceCents * l.quantity := by
              intro l hl
              rcases buildGuestLines_ok_mem hb l hl with ⟨r, _, hok⟩
              exact buildGuestLine_ok_lineTotal hok
            have hord := congrArg Prod.snd h
            have hst := congrArg Prod.fst h
            simp only [guestCommit] at hord hst
            subst hord
            subst hst
            refine ⟨?_, hlines, rfl, rfl, rfl, rfl⟩
            show items.foldl (fun sum i => sum + i.lineTotalCents) 0
                = (items.map fun l => l.unitPriceCents * l.quantity).sum
            rw [foldl_add_lineTotal, zero_add]
            congr 1
            exact List.map_congr_left hlines
  · intro s userId shipping s' ord h
    unfold cartCheckout at h
    cases hc : alookup userId s.carts with
    | none => rw [hc] at h; exact Except.noConfusion h
    | some cartItems =>
        simp only [hc] at h
        cases hemp : cartItems.isEmpty with
        | true => simp [hemp] at h
        | false =>
          simp only [hemp, Bool.false_eq_true, if_false] at h
          cases hb : buildCartLines s.products cartItems with
          | error e =>
              simp only [hb] at h
              exact Except.noConfusion h
          | ok items =>
              simp only [hb, Except.ok.injEq, Prod.mk.injEq] at h
              obtain ⟨hs', hord⟩ := h
              have hlines : ∀ l ∈ items, l.lineTotalCents = l.unitPriceCents * l.quantity := by
                intro l hl
                rcases buildCartLines_ok_mem hb l hl with ⟨ci, _, hok⟩
                exact buildCartLine_ok_lineTotal hok
              subst hord
              subst hs'
              refine ⟨?_, hlines, rfl, rfl, rfl, rfl⟩
              show items.foldl (fun sum i => sum + i.lineTotalCents) 0
                  = (items.map fun l => l.unitPriceCents * l.quantity).sum
              rw [foldl_add_lineTotal, zero_add]
              congr 1
              exact List.map_congr_left hlines

/-- C7. Cancelling a not-yet-cancelled order succeeds, increments each
product's stock by the total quantity its lines record (lines whose
product id no longer resolves are skipped silently: the lookup formula
sends an absent row to an absent row and the transaction still returns
ok), and sets the payment status to FAILED while leaving every other
order field as it was. -/
theorem cancel_releases_stock_and_fails_payment
    (s : DbState) (id : ℕ) (o : Order)
    (ho : alookup id s.orders = some o) (hnc : o.status ≠ OrderStatus.CANCELED) :
    ∃ s', updateOrderStatus s id .CANCELED = .ok s'
      ∧ (∀ pid, alookup pid s'.products
            = (alookup pid s.products).map fun p =>
                { p with stock := p.stock + lineQtyFor o.items pid })
      ∧ alookup id s'.orders
          = some { o with status := .CANCELED,
                          payment := { o.payment with status := .FAILED } } := by
  unfold updateOrderStatus
  simp only [ho]
  simp only [and_true, if_pos hnc]
  refine ⟨_, rfl, ?_, ?_⟩
  · intro pid
    exact alookup_releaseAll o.items s.products pid
  · rw [alookup_updAssoc, if_pos rfl, ho]
    rfl

/-- C10. Requesting CANCELED on an already-CANCELED order is a no-op
apart from rewriting the status field with its current value: the stock
of every product, the order itself, every other order, and the carts are
all unchanged, so cancellation's stock restoration happens at most once. -/
theorem cancel_already_canceled_is_noop
    (s : DbState) (id : ℕ) (o : Order)
    (ho : alookup id s.orders = some o) (hc : o.status = OrderStatus.CANCELED) :
    ∃ s', updateOrderStatus s id .CANCELED = .ok s'
      ∧ s'.products = s.products
      ∧ alookup id s'.orders = some o
      ∧ (∀ j, j ≠ id → alookup j s'.orders = alookup j s.orders)
      ∧ s'.carts = s.carts := by
  unfold updateOrderStatus
  simp only [ho]
  have hcn : ¬ o.status ≠ OrderStatus.CANCELED := by simp [hc]
  simp only [and_true, if_neg hcn]
  have hoo : ({ o with status := OrderStatus.CANCELED, payment := o.payment } : Order)
      = o := by
    rw [← hc]
  refine ⟨_, rfl, rfl, ?_, ?_, rfl⟩
  · rw [alookup_updAssoc, if_pos rfl, ho]
    simp [hoo]
  · intro j hj
    rw [alookup_updAssoc, if_neg hj]

/-- C8. A status transition never touches the stored money fields, the
shipping snapshot, the order lines, or the payment amount: the target
order changes only in its status field and possibly its payment's status
field; every other order, the carts and the settings are untouched; and a
transition into a status other than CANCELED and PAID leaves the products
and the payment entirely unchanged. -/
theorem status_update_only_touches_status
    (s : DbState) (id : ℕ) (newStatus : OrderStatus) (o : Order)
    (ho : alookup id s.orders = some o) :
    ∃ s' paySt,
      updateOrderStatus s id newStatus = .ok s'
        ∧ alookup id s'.orders
            = some { o with status := newStatus,
                            payment := { o.payment with status := paySt } }
        ∧ (∀ j, j ≠ id → alookup j s'.orders = alookup j s.orders)
        ∧ s'.carts = s.carts
        ∧ s'.settings = s.settings
        ∧ (newStatus ≠ .CANCELED → newStatus ≠ .PAID →
            s'.products = s.products ∧ paySt = o.payment.status) := by
  unfold updateOrderStatus
  simp only [ho]
  by_cases hcn : o.status ≠ OrderStatus.CANCELED ∧ newStatus = OrderStatus.CANCELED
  · have hnp : (newStatus = OrderStatus.PAID) = False := by
      simp [hcn.2]
    simp only [if_pos hcn, hnp, if_false]
    refine ⟨_, PaymentStatus.FAILED, rfl, ?_, ?_, rfl, rfl, ?_⟩
    · rw [alookup_updAssoc, if_pos rfl, ho]
      rfl
    · intro j hj
      rw [alookup_updAssoc, if_neg hj]
    · intro hne _
      exact absurd hcn.2 hne
  · by_cases hp : newStatus = OrderStatus.PAID
    · simp only [if_neg hcn, if_pos hp]
      refine ⟨_, PaymentStatus.PAID, rfl, ?_, ?_, rfl, rfl, ?_⟩
      · rw [alookup_updAssoc, if_pos rfl, ho]
        rfl
      · intro j hj
        rw [alookup_updAssoc, if_neg hj]
      · intro _ hne
        exact absurd hp hne
    · simp only [if_neg hcn, if_neg hp]
      refine ⟨_, o.payment.status, rfl, ?_, ?_, rfl, rfl, fun _ _ => ⟨rfl, rfl⟩⟩
      · rw [alookup_updAssoc, if_pos rfl, ho]
        rfl
      · intro j hj
        rw [alookup_updAssoc, if_neg hj]

/-- C6. When any requested line names a missing or inactive product or a
quantity above the current stock, both checkouts fail before any write:
the handler returns an error and the state — products, orders, payments,
carts — is exactly the initial one. -/
theorem checkout_bad_line_fails_without_write :
    (∀ (s : DbState) (shipping : ShippingInfo) (reqs : List LineRequest),
        (∃ r ∈ reqs, badLine s.products r.productId r.quantity) →
        ∃ e, guestCheckoutRun s shipping reqs = (s, .error e))
      ∧ (∀ (s : DbState) (userId : ℕ) (shipping : ShippingInfo)
          (cartItems : List CartItem),
          alookup userId s.carts = some cartItems →
          (∃ ci ∈ cartItems, badLine s.products ci.productId ci.quantity) →
          ∃ e, cartCheckoutRun s userId shipping = (s, .error e)) := by
  constructor
  · rintro s shipping reqs ⟨r, hr, hbad⟩
    rcases buildGuestLines_error_of_mem hr (buildGuestLine_error_of_bad hbad) with ⟨e, he⟩
    refine ⟨e, ?_⟩
    unfold guestCheckoutRun guestCheckout guestValidate
    simp only [he, Except.map]
  · rintro s userId shipping cartItems hc ⟨ci, hci, hbad⟩
    have hemp : cartItems.isEmpty = false := by
      cases cartItems with
      | nil => cases hci
      | cons a t => rfl
    rcases buildCartLines_error_of_mem hci (buildCartLine_error_of_bad hbad) with ⟨e, he⟩
    refine ⟨e, ?_⟩
    unfold cartCheckoutRun cartCheckout
    simp only [hc, hemp, Bool.false_eq_true, if_false, he]

/-- C9. Cart checkout returns the empty-cart error exactly when the
authenticated user's cart is missing or has no items; every error leaves
the state unchanged; and on success — within the one transaction — the
cart's items are deleted, the order is created, and each product's stock
is decremented by the total quantity the cart requested for it. -/
theorem cart_checkout_empty_iff_and_atomic_effects
    (s : DbState) (userId : ℕ) (shipping : ShippingInfo) :
    ((cartCheckoutRun s userId shipping).2 = .error .cartEmpty
        ↔ alookup userId s.carts = none ∨ alookup userId s.carts = some [])
      ∧ (∀ e, (cartCheckoutRun s userId shipping).2 = .error e →
          (cartCheckoutRun s userId shipping).1 = s)
      ∧ (∀ s' ord, cartCheckout s userId shipping = .ok (s', ord) →
          alookup userId s'.carts = some []
            ∧ s'.orders = (s.nextOrderId, ord) :: s.orders
            ∧ ∀ l, alookup userId s.carts = some l →
                ∀ pid, alookup pid s'.products
                  = (alookup pid s.products).map fun p =>
                      { p with stock := p.stock - cartQtyFor l pid }) := by
  refine ⟨?_, ?_, ?_⟩
  · unfold cartCheckoutRun cartCheckout
    cases hc : alookup userId s.carts with
    | none => simp
    | some cartItems =>
        cases hemp : cartItems.isEmpty with
        | true =>
            have : cartItems = [] := List.isEmpty_iff.mp hemp
            subst this
            simp
        | false =>
            have hne : cartItems ≠ [] := by
              intro hcon
              subst hcon
              exact Bool.noConfusion hemp
            simp only [hemp, Bool.false_eq_true, if_false]
            cases hb : buildCartLines s.products cartItems with
            | error e =>
                simp only [hb]
                constructor
                · intro hcon
                  simp only [Except.error.injEq] at hcon
                  exact absurd hcon (buildCartLines_error_ne_cartEmpty hb)
                · rintro (hcon | hcon)
                  · exact Option.noConfusion hcon
                  · rw [Option.some.injEq] at hcon
                    exact absurd hcon hne
            | ok items =>
                simp only [hb]
                constructor
                · intro hcon
                  exact Except.noConfusion hcon
                · rintro (hcon | hcon)
                  · exact Option.noConfusion hcon
                  · rw [Option.some.injEq] at hcon
                    exact absurd hcon hne
  · intro e he
    unfold cartCheckoutRun at he ⊢
    cases hr : cartCheckout s userId shipping with
    | error e0 => simp [hr]
    | ok p =>
        rw [hr] at he
        exact Except.noConfusion he
  · intro s' ord h
    unfold cartCheckout at h
    cases hc : alookup userId s.carts with
    | none => rw [hc] at h; exact Except.noConfusion h
    | some cartItems =>
        simp only [hc] at h
        cases hemp : cartItems.isEmpty with
        | true => simp [hemp] at h
        | false =>
            simp only [hemp, Bool.false_eq_true, if_false] at h
            cases hb : buildCartLines s.products cartItems with
            | error e =>
                simp only [hb] at h
                exact Except.noConfusion h
            | ok items =>
                simp only [hb, Except.ok.injEq, Prod.mk.injEq] at h
                obtain ⟨hs', hord⟩ := h
                subst hord
                subst hs'
                refine ⟨?_, rfl, ?_⟩
                · show alookup userId (updAssoc userId (fun _ => ([] : List CartItem)) s.carts)
                      = some []
                  rw [alookup_updAssoc, if_pos rfl, hc]
                  rfl
                · intro l hl pid
                  rw [Option.some.injEq] at hl
                  subst hl
                  exact alookup_applyCartDecrements cartItems s.products pid

/-! ## Fixtures for the witness instantiations -/

/-- The order a one-unit guest checkout of `exProduct` produces. -/
def exOrder : Order :=
  { userId := none, currency := "DT", subtotalCents := 100, discountCents := 0,
    shippingCents := 0, totalCents := 100, shipping := exShipping,
    status := .PENDING,
    items := [{ productId := some 1, name := "p", unitPriceCents := 100,
                quantity := 1, lineTotalCents := 100 }],
    payment := { method := "COD", status := .PENDING, amountCents := 100 } }

/-- The store after that guest checkout. -/
def exGuestFinal : DbState :=
  { products := [(1, { exProduct with stock := 0 })], orders := [(0, exOrder)],
    carts := [], settings := none, nextOrderId := 1 }

/-- A store in which user 7's cart holds one unit of product 1. -/
def exCartState : DbState :=
  { products := [(1, exProduct)], orders := [], carts := [(7, [⟨1, 1⟩])],
    settings := none, nextOrderId := 0 }

/-- The order the cart checkout of user 7 produces. -/
def exCartOrder : Order := { exOrder with userId := some 7 }

/-- The store after that cart checkout: stock decremented, order created,
cart cleared — all in one step. -/
def exCartFinal : DbState :=
  { products := [(1, { exProduct with stock := 0 })], orders := [(0, exCartOrder)],
    carts := [(7, [])], settings := none, nextOrderId := 1 }

/-- An order line over the live product 1. -/
def exLine : OrderLine :=
  { productId := some 1, name := "p", unitPriceCents := 100, quantity := 1,
    lineTotalCents := 100 }

/-- An order line whose product (id 99) no longer exists in the store. -/
def exGoneLine : OrderLine :=
  { productId := some 99, name := "gone", unitPriceCents := 50, quantity := 2,
    lineTotalCents := 100 }

/-- A PENDING order holding one live line and one dangling line. -/
def exPendingOrder : Order := { exOrder with items := [exLine, exGoneLine] }

/-- A store holding that order under id 5. -/
def exOrderState : DbState :=
  { products := [(1, exProduct)], orders := [(5, exPendingOrder)], carts := [],
    settings := none, nextOrderId := 6 }

/-- The same order, already CANCELED. -/
def exCanceledOrder : Order := { exPendingOrder with status := .CANCELED }

/-- A store holding the already-CANCELED order under id 5. -/
def exCanceledState : DbState :=
  { products := [(1, exProduct)], orders := [(5, exCanceledOrder)], carts := [],
    settings := none, nextOrderId := 6 }

/-- Closed instance of C5: both checkout flavours run on concrete stores,
with the reconciliation facts read off the created orders. -/
theorem checkout_creates_reconciled_order_and_pending_payment_witness :
    exOrder.payment.status = PaymentStatus.PENDING
      ∧ exOrder.payment.amountCents = exOrder.totalCents
      ∧ exOrder.subtotalCents
          = (exOrder.items.map fun l => l.unitPriceCents * l.quantity).sum
      ∧ exCartOrder.payment.status = PaymentStatus.PENDING
      ∧ exCartFinal.orders = (exCartState.nextOrderId, exCartOrder) :: exCartState.orders := by
  have hg := checkout_creates_reconciled_order_and_pending_payment.1 exState exShipping
    [⟨1, 1⟩] exGuestFinal exOrder (by with_unfolding_all rfl)
  have hcrt := checkout_creates_reconciled_order_and_pending_payment.2 exCartState 7
    exShipping exCartFinal exCartOrder (by with_unfolding_all rfl)
  exact ⟨hg.2.2.2.1, hg.2.2.2.2.1, hg.1, hcrt.2.2.2.1, hcrt.2.2.2.2.2⟩

/-- Closed instance of C6: an over-stock guest request (quantity 2 against
stock 1) is rejected and the state it returns is the initial one. -/
theorem checkout_bad_line_fails_without_write_witness :
    (guestCheckoutRun exState exShipping [⟨1, 2⟩]).1 = exState := by
  obtain ⟨e, he⟩ := checkout_bad_line_fails_without_write.1 exState exShipping [⟨1, 2⟩]
    ⟨⟨1, 2⟩, List.mem_cons_self _ _, Or.inr ⟨exProduct, rfl, Or.inr (by decide)⟩⟩
  exact congrArg Prod.fst he

/-- Closed instance of C7: cancelling order 5 restores product 1's stock
from 1 to 2 (its line quantity), silently skips the dangling line on
product 99, and succeeds. -/
theorem cancel_releases_stock_and_fails_payment_witness :
    (updateOrderStatus exOrderState 5 .CANCELED).map
        (fun s' => (alookup 1 s'.products, alookup 99 s'.products))
      = .ok (some { exProduct with stock := 2 }, none) := by
  obtain ⟨s', h1, h2, h3⟩ := cancel_releases_stock_and_fails_payment exOrderState 5
    exPendingOrder rfl (by decide)
  rw [h1]
  simp only [Except.map]
  rw [h2 1, h2 99]
  with_unfolding_all rfl

/-- Closed instance of C8: moving order 5 to SHIPPED leaves the product
table untouched. -/
theorem status_update_only_touches_status_witness :
    (updateOrderStatus exOrderState 5 .SHIPPED).map (fun s' => s'.products)
      = .ok exOrderState.products := by
  obtain ⟨s', paySt, h1, h2, h3, h4, h5, h6⟩ := status_update_only_touches_status
    exOrderState 5 .SHIPPED exPendingOrder rfl
  rw [h1]
  simp only [Except.map]
  rw [(h6 (by decide) (by decide)).1]

/-- Closed instance of C9: the successful cart checkout of user 7 clears
the cart and appends the order in the same step. -/
theorem cart_checkout_empty_iff_and_atomic_effects_witness :
    alookup 7 exCartFinal.carts = some []
      ∧ exCartFinal.orders = (exCartState.nextOrderId, exCartOrder) :: exCartState.orders := by
  have h := (cart_checkout_empty_iff_and_atomic_effects exCartState 7 exShipping).2.2
    exCartFinal exCartOrder (by with_unfolding_all rfl)
  exact ⟨h.1, h.2.1⟩

/-- Closed instance of C10: re-cancelling the already-CANCELED order 5
leaves the product table (and the order) exactly as they were. -/
theorem cancel_already_canceled_is_noop_witness :
    (updateOrderStatus exCanceledState 5 .CANCELED).map
        (fun s' => (s'.products, alookup 5 s'.orders))
      = .ok (exCanceledState.products, some exCanceledOrder) := by
  obtain ⟨s', h1, h2, h3, h4, h5⟩ := cancel_already_canceled_is_noop exCanceledState 5
    exCanceledOrder rfl rfl
  rw [h1]
  simp only [Except.map]
  rw [h2, h3]
